import Mathlib

/-!
# Verification of the automod punition pipeline (rcon/automods/automod.py)

Shallow embedding of the punition aggregation and enforcement pipeline.
Effectful Python functions are modelled as Lean functions that return the
trace of observable calls (`List Event`): remote command-channel calls,
audit-sink publications, log lines, and per-moderator callbacks. External
collaborators are explicit parameters:

* the command channel's failure behaviour is a `fails` oracle saying whether
  a given remote call raises a recognized failure
  (`CommandFailedError` / `HLLServerError`);
* each moderator's domain logic (`punitions_to_apply`, optional `on_kill`
  and `on_connected` hooks) is an abstract function parameter;
* the configuration store is a value re-read on each `enabled_moderators`
  call, modelled as a function from the call index to a config snapshot;
* the expiring key store backing the warm-up guard is a small state value.

`rcon/automods/models.py` is not part of src/: the fields of `PunishPlayer`
and `PunishDetails` and the constructors of `ActionMethod` are taken from
their uses in automod.py, and `PunitionsToApply.merge` is modelled from the
spec (see its doc comment).
-/

/-- `ActionMethod` from rcon/automods/models.py (not in src/); the three
constructors used by automod.py. -/
inductive ActionMethod where
  | MESSAGE
  | PUNISH
  | KICK
deriving DecidableEq, Repr

/-- The fields of `PunishDetails` that automod.py reads
(`aplayer.details.message/author/dry_run/discord_audit_url`). The audit URL
is `Option` since the code compares it against `None`. -/
structure PunishDetails where
  message : String
  author : String
  dry_run : Bool
  discord_audit_url : Option String
deriving DecidableEq, Repr

/-- The fields of `PunishPlayer` that automod.py reads
(`aplayer.name`, `aplayer.player_id`, `aplayer.details`). -/
structure PunishPlayer where
  name : String
  player_id : String
  details : PunishDetails
deriving DecidableEq, Repr

/-- Stands for Python `repr(aplayer)` in audit/log texts; the exact rendering
is irrelevant to the properties proved here. -/
def showPlayer (p : PunishPlayer) : String :=
  p.name ++ "(" ++ p.player_id ++ ")"

/-- `PunitionsToApply`: three ordered collections, one per action kind. -/
structure PunitionsToApply where
  warning : List PunishPlayer := []
  punish : List PunishPlayer := []
  kick : List PunishPlayer := []
deriving DecidableEq, Repr

/-- Modelled from the spec: `PunitionsToApply.merge` lives in
rcon/automods/models.py, which is not in src/. Spec section 3: the merge
operation concatenates same-kind collections from two aggregates, preserving
order (first-seen-first). -/
def PunitionsToApply.merge (a b : PunitionsToApply) : PunitionsToApply :=
  ⟨a.warning ++ b.warning, a.punish ++ b.punish, a.kick ++ b.kick⟩

/-- Modelled from the spec: Python truthiness of a `PunitionsToApply`
(models.py is not in src/), used only to pick a debug-log line in
`do_punitions`; treated as nonemptiness of the three collections. -/
def PunitionsToApply.nonempty (a : PunitionsToApply) : Bool :=
  !(a.warning.isEmpty && a.punish.isEmpty && a.kick.isEmpty)

/-- The four moderator kinds constructed in `enabled_moderators`. -/
inductive Moderator where
  | NoLeaderAutomod
  | SeedingRulesAutomod
  | LevelThresholdsAutomod
  | NoSoloTankAutomod
deriving DecidableEq, Repr

/-- One snapshot of the four per-moderator configs loaded from the
configuration store; the engine only consults each moderator's `enabled()`
capability, modelled as one flag per kind. -/
structure AutomodConfigs where
  no_leader_enabled : Bool
  seeding_enabled : Bool
  level_thresholds_enabled : Bool
  solo_tank_enabled : Bool
deriving DecidableEq, Repr

/-- `m.enabled()` for each freshly constructed moderator, as a function of
the config snapshot it was constructed with. -/
def Moderator.enabledIn (cfg : AutomodConfigs) : Moderator → Bool
  | .NoLeaderAutomod => cfg.no_leader_enabled
  | .SeedingRulesAutomod => cfg.seeding_enabled
  | .LevelThresholdsAutomod => cfg.level_thresholds_enabled
  | .NoSoloTankAutomod => cfg.solo_tank_enabled

/-- `enabled_moderators()` (automod.py lines 153-171): loads the four
configs, constructs the four moderators in this fixed order, and keeps the
enabled ones. -/
def enabled_moderators (cfg : AutomodConfigs) : List Moderator :=
  [Moderator.NoLeaderAutomod, Moderator.SeedingRulesAutomod,
   Moderator.LevelThresholdsAutomod, Moderator.NoSoloTankAutomod].filter (Moderator.enabledIn cfg)

/-- Calls made on the remote command channel (the `Rcon` client). -/
inductive RconCall where
  | get_team_view
  | get_gamestate
  | get_detailed_player_info (name : String)
  | message_player (name player_id message author : String)
  | message_player_deferred (player_id message author : String)
  | punish (name message author : String)
  | kick (player_name reason author player_id : String)
deriving DecidableEq, Repr

/-- Observable events of one run: remote calls, audit publications, log
lines, per-moderator callbacks and optional-hook invocations. -/
inductive Event where
  | rcon (c : RconCall)
  | discord_audit (webhookurl command_name message author : String)
  | logDebug (msg : String)
  | logWarning (msg : String)
  | logError (msg : String)
  | player_punish_failed (m : Moderator) (p : PunishPlayer)
  | on_kill_hook (m : Moderator)
  | on_connected_hook (m : Moderator)
deriving DecidableEq, Repr

def Event.isRconCall : Event → Bool
  | .rcon _ => true
  | _ => false

def Event.isAuditCall : Event → Bool
  | .discord_audit _ _ _ _ => true
  | _ => false

def Event.isMessageCall : Event → Bool
  | .rcon (.message_player _ _ _ _) => true
  | .rcon (.message_player_deferred _ _ _) => true
  | _ => false

def Event.isPunishCall : Event → Bool
  | .rcon (.punish _ _ _) => true
  | _ => false

def Event.isKickCall : Event → Bool
  | .rcon (.kick _ _ _ _) => true
  | _ => false

def Event.isOnKillHookCall : Event → Bool
  | .on_kill_hook _ => true
  | _ => false

/-- `audit(...)` (automod.py lines 194-204): publishes to the audit sink
only when a webhook target is configured; with no target it emits nothing. -/
def audit (discord_webhook_url : Option String) (command_name msg author : String) :
    List Event :=
  match discord_webhook_url with
  | none => []
  | some u => [Event.discord_audit u command_name msg author]

/-- Failure oracle for the command channel: whether the remote call for this
method and player raises a recognized failure
(`CommandFailedError` / `HLLServerError`). Unrecognized exceptions, which
the code does not catch, are outside the model. -/
abbrev FailOracle := ActionMethod → PunishPlayer → Bool

/-- Loop body of `_do_punitions` (automod.py lines 72-128) for one player:
the try block performs the method's remote call (skipped when `dry_run`)
then the audit step; a recognized failure from the remote call skips the
audit, logs a retry-intent warning, and, for PUNISH, invokes every
moderator's `player_punish_failed`, or, for KICK, emits a kick-failed audit. -/
def punitionStep (method : ActionMethod) (aplayer : PunishPlayer) (mods : List Moderator)
    (fails : FailOracle) : List Event :=
  let call : RconCall :=
    match method with
    | .MESSAGE => .message_player aplayer.name aplayer.player_id
        aplayer.details.message aplayer.details.author
    | .PUNISH => .punish aplayer.name aplayer.details.message aplayer.details.author
    | .KICK => .kick aplayer.name aplayer.details.message aplayer.details.author
        aplayer.player_id
  let auditEvs : List Event :=
    match method with
    | .MESSAGE => audit aplayer.details.discord_audit_url "message_player"
        ("-> WARNING: " ++ showPlayer aplayer) aplayer.details.author
    | .PUNISH => audit aplayer.details.discord_audit_url "punish"
        ("--> PUNISHING: " ++ showPlayer aplayer) aplayer.details.author
    | .KICK => audit aplayer.details.discord_audit_url "kick"
        ("---> KICKING <---: " ++ showPlayer aplayer) aplayer.details.author
  if aplayer.details.dry_run then
    auditEvs
  else if fails method aplayer then
    [Event.rcon call, Event.logWarning ("Couldn't " ++ showPlayer aplayer ++ ". Will retry.")]
      ++ (match method with
          | .PUNISH => mods.map (fun m => Event.player_punish_failed m aplayer)
          | .KICK => audit aplayer.details.discord_audit_url "kick"
              ("---> KICK FAILED, will retry <---: " ++ showPlayer aplayer)
              aplayer.details.author
          | .MESSAGE => [])
  else
    Event.rcon call :: auditEvs

/-- `_do_punitions` (automod.py lines 66-128): one pass over a collection of
players, the loop body isolated per player by the try/except. -/
def do_punitions_pass (method : ActionMethod) (players : List PunishPlayer)
    (mods : List Moderator) (fails : FailOracle) : List Event :=
  match players with
  | [] => []
  | p :: rest => punitionStep method p mods fails ++ do_punitions_pass method rest mods fails

/-- `do_punitions` (automod.py lines 131-150): a debug line, then the
MESSAGE pass over `warning`, the PUNISH pass over `punish`, and the KICK
pass over `kick`, each with a freshly re-read `enabled_moderators()`; the
`cfgs` argument gives the config snapshot seen by the k-th of those three
reads. -/
def do_punitions (punitions_to_apply : PunitionsToApply)
    (cfgs : Nat → AutomodConfigs) (fails : FailOracle) : List Event :=
  (if punitions_to_apply.nonempty then
    [Event.logDebug "Automod will apply the following punitions"]
   else
    [Event.logDebug "Automod did not suggest any punitions"])
  ++ do_punitions_pass .MESSAGE punitions_to_apply.warning
      (enabled_moderators (cfgs 0)) fails
  ++ do_punitions_pass .PUNISH punitions_to_apply.punish
      (enabled_moderators (cfgs 1)) fails
  ++ do_punitions_pass .KICK punitions_to_apply.kick
      (enabled_moderators (cfgs 2)) fails

/-- The expiring key store backing the warm-up guard: the remaining TTL of
the `first_run_done` key, `none` when the key is absent. -/
structure RedisState where
  first_run_done_ttl : Option Nat
deriving DecidableEq, Repr

/-- `is_first_run_done` (automod.py lines 174-175): the key exists. -/
def is_first_run_done (r : RedisState) : Bool :=
  r.first_run_done_ttl.isSome

/-- `set_first_run_done` (automod.py lines 178-179): `setex` with a
4-minute TTL. -/
def set_first_run_done (_ : RedisState) : RedisState :=
  ⟨some (4 * 60)⟩

/-- Payload of one player entry in the team view / detailed player info;
its content is consumed only by moderator domain logic, so it is kept
abstract as a string. -/
abbrev PlayerData := String

/-- Abstract game-state snapshot returned by `rcon.get_gamestate()`. -/
abbrev GameState := String

/-- The squad dictionaries passed to a moderator's `punitions_to_apply`:
either a real squad from the team view, or the synthetic
`{"players": [commander]}` built for the commander role. -/
structure SquadView where
  players : List PlayerData
deriving DecidableEq, Repr

/-- One side's entry in the team view: the `commander` key (possibly null)
and the named `squads`. -/
structure TeamEntry where
  commander : Option PlayerData
  squads : List (String × SquadView)
deriving DecidableEq, Repr

/-- The team view returned by `rcon.get_team_view()`: per-side entries,
either of which may be absent (`team_view.get(team)` falsy). -/
structure TeamView where
  allies : Option TeamEntry
  axis : Option TeamEntry
deriving DecidableEq, Repr

/-- `team_view.get(team)` for the two side keys iterated by the engine. -/
def TeamView.get (tv : TeamView) : String → Option TeamEntry
  | "allies" => tv.allies
  | "axis" => tv.axis
  | _ => none

/-- Abstract domain logic of `mod.punitions_to_apply(team_view, squad_name,
team, squad, gamestate)`: each moderator's rule evaluation is an external
collaborator. -/
abbrev ModEval :=
  Moderator → TeamView → String → String → SquadView → GameState → PunitionsToApply

/-- The commander-role block of `get_punitions_to_apply` (automod.py lines
41-53): when the team's commander slot is occupied, every moderator
evaluates the synthetic one-player squad labelled "Commander"; when it is
null the block is skipped and the running aggregate is unchanged. -/
def commanderFold (modEval : ModEval) (mods : List Moderator) (tv : TeamView)
    (team : String) (entry : TeamEntry) (gamestate : GameState)
    (acc : PunitionsToApply) : PunitionsToApply :=
  match entry.commander with
  | none => acc
  | some c =>
      mods.foldl
        (fun a m => a.merge (modEval m tv "Commander" team ⟨[c]⟩ gamestate)) acc

/-- The per-squad block of `get_punitions_to_apply` (automod.py lines
55-61): every moderator evaluates every named squad of the team. -/
def squadsFold (modEval : ModEval) (mods : List Moderator) (tv : TeamView)
    (team : String) (entry : TeamEntry) (gamestate : GameState)
    (acc : PunitionsToApply) : PunitionsToApply :=
  entry.squads.foldl
    (fun a sq =>
      mods.foldl (fun a2 m => a2.merge (modEval m tv sq.1 team sq.2 gamestate)) a)
    acc

/-- Body of the per-team loop of `get_punitions_to_apply` (automod.py lines
37-61): an absent/falsy team entry contributes nothing (`continue`);
otherwise the commander block runs, then the squads block. -/
def teamStep (modEval : ModEval) (mods : List Moderator) (tv : TeamView)
    (gamestate : GameState) (acc : PunitionsToApply) (team : String) :
    PunitionsToApply :=
  match tv.get team with
  | none => acc
  | some entry =>
      squadsFold modEval mods tv team entry gamestate
        (commanderFold modEval mods tv team entry gamestate acc)

/-- `get_punitions_to_apply` (automod.py lines 31-63): fetches the team
view and game state, then folds the per-team step over `["allies", "axis"]`
starting from an empty aggregate. The remote fetches are reported
separately (in `punish_squads`), this function returning the aggregate. -/
def get_punitions_to_apply (modEval : ModEval) (tv : TeamView)
    (gamestate : GameState) (mods : List Moderator) : PunitionsToApply :=
  ["allies", "axis"].foldl (teamStep modEval mods tv gamestate) {}

/-- `punish_squads` (automod.py lines 182-191): an empty fresh
`enabled_moderators()` set returns immediately (no state fetch, no action,
guard untouched); otherwise the engine runs on the fetched state, the
executor applies the result, and the warm-up guard is marked. `cfgs k` is
the configuration seen by the k-th `enabled_moderators()` call of this
invocation (k = 0 here, k = 1,2,3 inside `do_punitions`). -/
def punish_squads (cfgs : Nat → AutomodConfigs) (modEval : ModEval)
    (tv : TeamView) (gamestate : GameState) (fails : FailOracle)
    (r : RedisState) : List Event × RedisState :=
  let mods := enabled_moderators (cfgs 0)
  if mods.length = 0 then
    ([Event.logDebug "No automod is enabled"], r)
  else
    let punitions_to_apply := get_punitions_to_apply modEval tv gamestate mods
    ([Event.logDebug "Getting team info", Event.rcon .get_team_view,
      Event.rcon .get_gamestate]
       ++ do_punitions punitions_to_apply (fun k => cfgs (k + 1)) fails,
     set_first_run_done r)

/-- Abstract optional `on_kill` hooks: `none` models a moderator without the
attribute (skipped via the `callable` check), `some h` models the hook's
domain logic on the structured log line (kept abstract as a string). -/
abbrev OnKillHooks := Moderator → Option (String → PunitionsToApply)

/-- `on_kill` (automod.py lines 207-227): no-op with a debug trace while the
warm-up guard is not ready; no-op when no moderator is enabled; otherwise
merge every present `on_kill` hook's aggregate and run the executor on it. -/
def on_kill (r : RedisState) (cfgs : Nat → AutomodConfigs)
    (hooks : OnKillHooks) (log : String) (fails : FailOracle) : List Event :=
  if !is_first_run_done r then
    [Event.logDebug
      "Kill event received, but not automod run done yet, giving mods time to warmup"]
  else
    let mods := enabled_moderators (cfgs 0)
    if mods.length = 0 then
      [Event.logDebug "No automod is enabled"]
    else
      let st := mods.foldl
        (fun (st : List Event × PunitionsToApply) m =>
          match hooks m with
          | some h => (st.1 ++ [Event.on_kill_hook m], st.2.merge (h log))
          | none => st)
        ([], {})
      st.1 ++ do_punitions st.2 (fun k => cfgs (k + 1)) fails

/-- Abstract optional `on_connected` hooks, analogous to `OnKillHooks`:
`some h` models a present hook, applied to the player name, player id and
the (possibly absent) detailed player info. -/
abbrev OnConnectedHooks :=
  Moderator → Option (String → String → Option PlayerData → PunitionsToApply)

/-- One scheduled deferred notification: the `Timer(20, notify_player)`
closure, which captures the connect event's name, player id and merged
aggregate's warning list. -/
structure NotifyTask where
  name : String
  player_id : String
  warnings : List PunishPlayer
deriving DecidableEq, Repr

/-- The timer state of the connect hook: the module-level `pendingTimers`
dict (keyed by player id, overwritten on re-insert), and the list of all
timers that have been `start()`ed and never cancelled — each of these will
fire once its 20-second delay elapses. automod.py never cancels a timer,
so entries are only ever appended to `started`. -/
structure TimerState where
  pendingTimers : List (String × NotifyTask)
  started : List NotifyTask
deriving DecidableEq, Repr

/-- Python dict assignment `pendingTimers[player_id] = t`: overwrite the
existing entry for the key, else append. -/
def dictSet (k : String) (v : NotifyTask) :
    List (String × NotifyTask) → List (String × NotifyTask)
  | [] => [(k, v)]
  | kv :: rest =>
      if kv.1 = k then (k, v) :: rest else kv :: dictSet k v rest

/-- Delivery loop of the `notify_player` closure (automod.py lines
263-273): the try block wraps the WHOLE loop over the captured warnings, so
the first raising `message_player` call is logged and ends the delivery;
messages after it are not attempted. `msgFails` is the failure oracle for
`rcon.message_player(..., save_message=False)`. -/
def notify_loop (t : NotifyTask) (msgFails : PunishPlayer → Bool) :
    List PunishPlayer → List Event
  | [] => []
  | p :: rest =>
      if msgFails p then
        [Event.rcon (.message_player_deferred p.player_id p.details.message
           p.details.author),
         Event.logError ("Could not message player " ++ t.name ++ " (" ++
           t.player_id ++ ")")]
      else
        Event.rcon (.message_player_deferred p.player_id p.details.message
          p.details.author) :: notify_loop t msgFails rest

/-- The `notify_player` closure as run by a fired timer: the delivery loop
over the captured warnings. -/
def notify_player (t : NotifyTask) (msgFails : PunishPlayer → Bool) : List Event :=
  notify_loop t msgFails t.warnings

/-- All deliveries that eventually happen from a timer state: every timer
that was started and never cancelled fires exactly once, running its
`notify_player` closure. -/
def firedDeliveries (ts : TimerState) (msgFails : PunishPlayer → Bool) :
    List (List Event) :=
  ts.started.map (fun t => notify_player t msgFails)

/-- The loop of automod.py lines 256-261 from an arbitrary running state:
each moderator exposing an `on_connected` hook is invoked and its aggregate
merged. -/
def connectedAggregateFrom (mods : List Moderator) (hooks : OnConnectedHooks)
    (name player_id : String) (detail : Option PlayerData)
    (init : List Event × PunitionsToApply) : List Event × PunitionsToApply :=
  mods.foldl
    (fun (st : List Event × PunitionsToApply) m =>
      match hooks m with
      | some h => (st.1 ++ [Event.on_connected_hook m],
                   st.2.merge (h name player_id detail))
      | none => st)
    init

/-- The aggregate merged from the present `on_connected` hooks (automod.py
lines 255-261), together with the hook-invocation events. -/
def connectedAggregate (mods : List Moderator) (hooks : OnConnectedHooks)
    (name player_id : String) (detail : Option PlayerData) :
    List Event × PunitionsToApply :=
  connectedAggregateFrom mods hooks name player_id detail ([], {})

/-- `on_connected` (automod.py lines 233-281). Guard and enabled-moderator
checks as in `on_kill`; then the detailed-player fetch, whose failure is
recovered by proceeding with an absent detail value (`detailOk` is the
fetch's outcome, `detail` its value on success); then the hook aggregate is
merged. With zero warnings in the merged aggregate the hook returns without
touching the timers — note no punish or kick entry of the aggregate is ever
executed. With warnings, a 20-second timer delivering them is stored under
the player id and started; the superseded dict entry's timer is NOT
cancelled. -/
def on_connected (r : RedisState) (cfg : AutomodConfigs)
    (hooks : OnConnectedHooks) (detailOk : Bool) (detail : PlayerData)
    (name player_id : String) (ts : TimerState) : List Event × TimerState :=
  if !is_first_run_done r then
    ([Event.logDebug
       "Kill event received, but not automod run done yet, giving mods time to warmup"],
     ts)
  else
    let mods := enabled_moderators cfg
    if mods.length = 0 then
      ([Event.logDebug "No automod is enabled"], ts)
    else
      let fetchEvs :=
        [Event.rcon (.get_detailed_player_info name)] ++
          (if detailOk then []
           else [Event.logError
             ("get_detailed_player_info threw an exception for " ++ name)])
      let detailed_player_info : Option PlayerData :=
        if detailOk then some detail else none
      let st := connectedAggregate mods hooks name player_id detailed_player_info
      if st.2.warning.length = 0 then
        (fetchEvs ++ st.1, ts)
      else
        let t : NotifyTask := ⟨name, player_id, st.2.warning⟩
        (fetchEvs ++ st.1,
         ⟨dictSet player_id t ts.pendingTimers, ts.started ++ [t]⟩)

/-! ## Concrete scenario values used by witnesses and counterexamples -/

/-- A warning entry with no audit target. -/
def wPlayer : PunishPlayer := ⟨"alice", "A1", ⟨"w1", "mod", false, none⟩⟩

/-- A kick entry for the same player. -/
def kPlayer : PunishPlayer := ⟨"alice", "A1", ⟨"bye", "mod", false, none⟩⟩

/-- A punish entry for a second player. -/
def pPlayer : PunishPlayer := ⟨"bob", "B1", ⟨"stop", "mod", false, none⟩⟩

/-- A dry-run entry with an audit target. -/
def dryPlayerAudited : PunishPlayer :=
  ⟨"carol", "C1", ⟨"dry", "mod", true, some "http://hook"⟩⟩

/-- A dry-run entry without an audit target. -/
def dryPlayerSilent : PunishPlayer := ⟨"dave", "D1", ⟨"dry", "mod", true, none⟩⟩

/-- Config with every moderator disabled. -/
def cfgNone : AutomodConfigs := ⟨false, false, false, false⟩

/-- Config with only the no-leader moderator enabled. -/
def cfgNoLeader : AutomodConfigs := ⟨true, false, false, false⟩

/-- Config with only the seeding moderator enabled. -/
def cfgSeeding : AutomodConfigs := ⟨false, true, false, false⟩

/-- Config with only the level-thresholds moderator enabled. -/
def cfgLevel : AutomodConfigs := ⟨false, false, true, false⟩

/-- Config with only the solo-tank moderator enabled. -/
def cfgSoloTank : AutomodConfigs := ⟨false, false, false, true⟩

/-- A team view with no allies entry and an axis entry whose commander slot
is empty. -/
def tvNoCommander : TeamView :=
  ⟨none, some ⟨none, [("able", ⟨["p1"]⟩)]⟩⟩

/-- Moderator evaluation that never proposes anything. -/
def modEvalNone : ModEval := fun _ _ _ _ _ _ => {}

/-! ## C7: empty enabled-moderator set -/

/-- C7: when the freshly read enabled-moderator set is empty, one
`punish_squads` invocation performs zero remote-channel calls (no state
fetch, no action) and returns the warm-up guard state unchanged. -/
theorem punish_squads_empty_mods_noop (cfgs : Nat → AutomodConfigs)
    (modEval : ModEval) (tv : TeamView) (gamestate : GameState)
    (fails : FailOracle) (r : RedisState)
    (h : enabled_moderators (cfgs 0) = []) :
    (punish_squads cfgs modEval tv gamestate fails r).1.countP Event.isRconCall = 0 ∧
    (punish_squads cfgs modEval tv gamestate fails r).2 = r := by
  simp [punish_squads, h, Event.isRconCall]

/-- C7 witness: the all-disabled config. -/
theorem punish_squads_empty_mods_noop_witness :
    (punish_squads (fun _ => cfgNone) modEvalNone tvNoCommander "gs"
        (fun _ _ => false) ⟨none⟩).1.countP Event.isRconCall = 0 ∧
    (punish_squads (fun _ => cfgNone) modEvalNone tvNoCommander "gs"
        (fun _ _ => false) ⟨none⟩).2 = ⟨none⟩ :=
  punish_squads_empty_mods_noop (fun _ => cfgNone) modEvalNone tvNoCommander
    "gs" (fun _ _ => false) ⟨none⟩ (by decide)

/-! ## C8: kill event during warm-up -/

/-- C8: a kill event arriving while the warm-up guard is not ready does no
work: no moderator's `on_kill` hook is invoked and no remote call (hence no
punition) is made. -/
theorem on_kill_guard_not_ready_noop (r : RedisState)
    (cfgs : Nat → AutomodConfigs) (hooks : OnKillHooks) (log : String)
    (fails : FailOracle) (h : is_first_run_done r = false) :
    (on_kill r cfgs hooks log fails).countP Event.isOnKillHookCall = 0 ∧
    (on_kill r cfgs hooks log fails).countP Event.isRconCall = 0 := by
  simp [on_kill, h, Event.isOnKillHookCall, Event.isRconCall]

/-- C8 witness: absent `first_run_done` key, every moderator enabled with a
hook that would propose a kick. -/
theorem on_kill_guard_not_ready_noop_witness :
    (on_kill ⟨none⟩ (fun _ => ⟨true, true, true, true⟩)
        (fun _ => some (fun _ => ⟨[], [], [kPlayer]⟩)) "log"
        (fun _ _ => false)).countP Event.isOnKillHookCall = 0 ∧
    (on_kill ⟨none⟩ (fun _ => ⟨true, true, true, true⟩)
        (fun _ => some (fun _ => ⟨[], [], [kPlayer]⟩)) "log"
        (fun _ _ => false)).countP Event.isRconCall = 0 :=
  on_kill_guard_not_ready_noop ⟨none⟩ _ _ "log" _ (by decide)

/-! ## C9: absent team entry / absent commander -/

/-- C9: the engine's per-team step skips an absent team entry entirely, and
for a present entry with an unoccupied commander slot the commander block
contributes nothing — the team's contribution is exactly the squad-level
part. (All embedding functions are total, so no exception is possible.) -/
theorem commander_absent_skipped (modEval : ModEval) (mods : List Moderator)
    (tv : TeamView) (gamestate : GameState) (acc : PunitionsToApply)
    (team : String) :
    (tv.get team = none → teamStep modEval mods tv gamestate acc team = acc) ∧
    (∀ entry, tv.get team = some entry → entry.commander = none →
      commanderFold modEval mods tv team entry gamestate acc = acc ∧
      teamStep modEval mods tv gamestate acc team =
        squadsFold modEval mods tv team entry gamestate acc) := by
  constructor
  · intro h
    simp [teamStep, h]
  · intro entry he hc
    have h1 : commanderFold modEval mods tv team entry gamestate acc = acc := by
      simp [commanderFold, hc]
    exact ⟨h1, by simp [teamStep, he, h1]⟩

/-- C9 witness: a team view with no allies entry and a commander-less axis
entry. -/
theorem commander_absent_skipped_witness :
    teamStep modEvalNone [Moderator.NoLeaderAutomod] tvNoCommander "gs" {} "allies" = {} ∧
    commanderFold modEvalNone [Moderator.NoLeaderAutomod] tvNoCommander "axis"
      ⟨none, [("able", ⟨["p1"]⟩)]⟩ "gs" {} = {} :=
  ⟨(commander_absent_skipped modEvalNone [Moderator.NoLeaderAutomod]
      tvNoCommander "gs" {} "allies").1 rfl,
   ((commander_absent_skipped modEvalNone [Moderator.NoLeaderAutomod]
      tvNoCommander "gs" {} "axis").2 ⟨none, [("able", ⟨["p1"]⟩)]⟩ rfl rfl).1⟩

/-! ## C6: dry-run actions -/

/-- One dry-run action: no remote call, and exactly one audit publication
when (and only when) an audit target is configured. -/
lemma punitionStep_dry_counts (method : ActionMethod) (q : PunishPlayer)
    (mods : List Moderator) (fails : FailOracle)
    (h : q.details.dry_run = true) :
    (punitionStep method q mods fails).countP Event.isRconCall = 0 ∧
    (punitionStep method q mods fails).countP Event.isAuditCall
      = (if q.details.discord_audit_url.isSome then 1 else 0) := by
  cases method <;> rcases hurl : q.details.discord_audit_url with _ | u <;>
    simp [punitionStep, audit, h, hurl, Event.isRconCall, Event.isAuditCall]

/-- C6: an executor pass over dry-run actions issues no remote call at all,
yet publishes one audit record per action that has an audit target
configured; actions without a target are silently skipped by the audit
step. -/
theorem dry_run_no_remote_still_audited (method : ActionMethod)
    (players : List PunishPlayer) (mods : List Moderator) (fails : FailOracle)
    (h : ∀ p ∈ players, p.details.dry_run = true) :
    (do_punitions_pass method players mods fails).countP Event.isRconCall = 0 ∧
    (do_punitions_pass method players mods fails).countP Event.isAuditCall
      = players.countP (fun p => p.details.discord_audit_url.isSome) := by
  induction players with
  | nil => simp [do_punitions_pass]
  | cons q rest ih =>
      have hq := h q (by simp)
      have hrest := ih (fun p hp => h p (by simp [hp]))
      have hstep := punitionStep_dry_counts method q mods fails hq
      simp only [do_punitions_pass, List.countP_append, List.countP_cons,
        hstep.1, hstep.2, hrest.1, hrest.2]
      refine ⟨trivial, ?_⟩
      rcases hq2 : q.details.discord_audit_url.isSome <;> simp [hq2] <;> omega

/-- C6 witness: a dry-run pass over one audited and one unaudited action,
with a channel that would fail every call. -/
theorem dry_run_no_remote_still_audited_witness :
    (do_punitions_pass .PUNISH [dryPlayerAudited, dryPlayerSilent]
        [Moderator.NoLeaderAutomod] (fun _ _ => true)).countP Event.isRconCall = 0 ∧
    (do_punitions_pass .PUNISH [dryPlayerAudited, dryPlayerSilent]
        [Moderator.NoLeaderAutomod] (fun _ _ => true)).countP Event.isAuditCall
      = [dryPlayerAudited, dryPlayerSilent].countP
          (fun p => p.details.discord_audit_url.isSome) :=
  dry_run_no_remote_still_audited .PUNISH [dryPlayerAudited, dryPlayerSilent]
    [Moderator.NoLeaderAutomod] (fun _ _ => true) (by decide)

/-! ## C3: punish failure callbacks -/

/-- One PUNISH action: the number of `player_punish_failed` callbacks
delivered to a given moderator for a given player, as a function of whether
this action is for that player and the channel rejects it. -/
lemma punitionStep_callback_count (q : PunishPlayer) (mods : List Moderator)
    (fails : FailOracle) (m : Moderator) (p : PunishPlayer)
    (hm : m ∈ mods) (hnd : mods.Nodup) :
    (punitionStep .PUNISH q mods fails).countP
        (fun e => e == Event.player_punish_failed m p)
      = (if q == p && !q.details.dry_run && fails .PUNISH q then 1 else 0) := by
  by_cases hqp : q = p
  · subst hqp
    rcases hd : q.details.dry_run <;> rcases hf : fails .PUNISH q <;>
      rcases hurl : q.details.discord_audit_url with _ | u <;>
      simp [punitionStep, audit, hd, hf, hurl, List.countP_map, Function.comp]
    all_goals
      have hpred : ((fun e => e == Event.player_punish_failed m q) ∘
          fun m2 => Event.player_punish_failed m2 q) = (fun m2 => m2 == m) := by
        funext m2
        simp [Function.comp]
      rw [hpred, ← List.count_eq_countP]
      exact List.count_eq_one_of_mem hnd hm
  · rcases hd : q.details.dry_run <;> rcases hf : fails .PUNISH q <;>
      rcases hurl : q.details.discord_audit_url with _ | u <;>
      simp [punitionStep, audit, hd, hf, hurl, hqp, List.countP_map,
        Function.comp, Ne.symm hqp]

/-- C3: over a whole PUNISH pass, a moderator in the (duplicate-free) pass
moderator set receives exactly one `player_punish_failed` callback per
rejected, non-dry punish action for a player — in particular exactly one
for a single rejected action — and actions after a rejected one still
contribute their own events, so the pass continues to the next player
instead of aborting. -/
theorem punish_failed_callback_exactly_once (players : List PunishPlayer)
    (mods : List Moderator) (fails : FailOracle) (m : Moderator)
    (p : PunishPlayer) (hm : m ∈ mods) (hnd : mods.Nodup) :
    (do_punitions_pass .PUNISH players mods fails).countP
        (fun e => e == Event.player_punish_failed m p)
      = players.countP
          (fun q => q == p && !q.details.dry_run && fails .PUNISH q) := by
  induction players with
  | nil => simp [do_punitions_pass]
  | cons q rest ih =>
      simp only [do_punitions_pass, List.countP_append, List.countP_cons, ih,
        punitionStep_callback_count q mods fails m p hm hnd]
      rcases hc : (q == p && !q.details.dry_run && fails .PUNISH q) <;>
        simp [hc, Nat.add_comm]

/-- C3 witness: the channel rejects bob's punish but accepts alice's; the
no-leader moderator (a member of the two-element enabled set) is called
back exactly once, and the pass still emits alice's events. -/
theorem punish_failed_callback_exactly_once_witness :
    Moderator.NoLeaderAutomod ∈ enabled_moderators ⟨true, true, false, false⟩ ∧
    (do_punitions_pass .PUNISH [pPlayer, wPlayer]
        (enabled_moderators ⟨true, true, false, false⟩)
        (fun _ q => q == pPlayer)).countP
        (fun e => e == Event.player_punish_failed .NoLeaderAutomod pPlayer)
      = [pPlayer, wPlayer].countP
          (fun q => q == pPlayer && !q.details.dry_run && (fun (_ : ActionMethod) q => q == pPlayer) .PUNISH q) :=
  ⟨by decide,
   punish_failed_callback_exactly_once [pPlayer, wPlayer]
     (enabled_moderators ⟨true, true, false, false⟩) (fun _ q => q == pPlayer)
     .NoLeaderAutomod pPlayer (by decide) (by decide)⟩

/-! ## C5: fixed pass order warn, then punish, then kick -/

/-- A MESSAGE-pass step never emits a kick call. -/
lemma punitionStep_MESSAGE_no_kick (q : PunishPlayer) (mods : List Moderator)
    (fails : FailOracle) :
    (punitionStep .MESSAGE q mods fails).countP Event.isKickCall = 0 := by
  rcases hd : q.details.dry_run <;> rcases hf : fails .MESSAGE q <;>
    rcases hurl : q.details.discord_audit_url with _ | u <;>
    simp [punitionStep, audit, hd, hf, hurl, Event.isKickCall]

/-- A PUNISH-pass step never emits a kick call. -/
lemma punitionStep_PUNISH_no_kick (q : PunishPlayer) (mods : List Moderator)
    (fails : FailOracle) :
    (punitionStep .PUNISH q mods fails).countP Event.isKickCall = 0 := by
  rcases hd : q.details.dry_run <;> rcases hf : fails .PUNISH q <;>
    rcases hurl : q.details.discord_audit_url with _ | u <;>
    simp [punitionStep, audit, hd, hf, hurl, Event.isKickCall,
      List.countP_map, Function.comp]

/-- A KICK-pass step never emits a message call. -/
lemma punitionStep_KICK_no_message (q : PunishPlayer) (mods : List Moderator)
    (fails : FailOracle) :
    (punitionStep .KICK q mods fails).countP Event.isMessageCall = 0 := by
  rcases hd : q.details.dry_run <;> rcases hf : fails .KICK q <;>
    rcases hurl : q.details.discord_audit_url with _ | u <;>
    simp [punitionStep, audit, hd, hf, hurl, Event.isMessageCall]

/-- Lifting a vanishing per-step count to a whole pass. -/
lemma pass_countP_zero (method : ActionMethod) (players : List PunishPlayer)
    (mods : List Moderator) (fails : FailOracle) (P : Event → Bool)
    (hstep : ∀ q, (punitionStep method q mods fails).countP P = 0) :
    (do_punitions_pass method players mods fails).countP P = 0 := by
  induction players with
  | nil => simp [do_punitions_pass]
  | cons q rest ih => simp [do_punitions_pass, List.countP_append, hstep q, ih]

/-- In `l = A ++ B`, a position whose element satisfies `P` (absent from
`B`) precedes a position whose element satisfies `Q` (absent from `A`). -/
lemma index_lt_of_split {α : Type} (l A B : List α) (P Q : α → Bool)
    (hEq : l = A ++ B) (hBP : B.countP P = 0) (hAQ : A.countP Q = 0)
    (i j : Nat) (hi : i < l.length) (hj : j < l.length)
    (hPi : P (l.get ⟨i, hi⟩) = true) (hQj : Q (l.get ⟨j, hj⟩) = true) :
    i < j := by
  subst hEq
  have hlen := hi
  simp only [List.length_append] at hlen
  have hiA : i < A.length := by
    by_contra hge
    push_neg at hge
    have hmem : (A ++ B).get ⟨i, hi⟩ ∈ B := by
      rw [List.get_eq_getElem, List.getElem_append_right hge]
      exact List.getElem_mem _
    exact (List.countP_eq_zero.mp hBP) _ hmem hPi
  have hjA : A.length ≤ j := by
    by_contra hlt
    push_neg at hlt
    have hmem : (A ++ B).get ⟨j, hj⟩ ∈ A := by
      rw [List.get_eq_getElem, List.getElem_append_left hlt]
      exact List.getElem_mem _
    exact (List.countP_eq_zero.mp hAQ) _ hmem hQj
  omega

/-- C5: in the event list of one `do_punitions` call, every message
(warning) call precedes every kick call — the executor processes the
warnings collection, then punishes, then kicks, in that fixed order. -/
theorem do_punitions_warn_before_kick (punitions_to_apply : PunitionsToApply)
    (cfgs : Nat → AutomodConfigs) (fails : FailOracle) (i j : Nat)
    (hi : i < (do_punitions punitions_to_apply cfgs fails).length)
    (hj : j < (do_punitions punitions_to_apply cfgs fails).length)
    (hmsg : ((do_punitions punitions_to_apply cfgs fails).get
      ⟨i, hi⟩).isMessageCall = true)
    (hkick : ((do_punitions punitions_to_apply cfgs fails).get
      ⟨j, hj⟩).isKickCall = true) :
    i < j := by
  refine index_lt_of_split _
    (((if punitions_to_apply.nonempty then
        [Event.logDebug "Automod will apply the following punitions"]
       else
        [Event.logDebug "Automod did not suggest any punitions"])
      ++ do_punitions_pass .MESSAGE punitions_to_apply.warning
          (enabled_moderators (cfgs 0)) fails)
      ++ do_punitions_pass .PUNISH punitions_to_apply.punish
          (enabled_moderators (cfgs 1)) fails)
    (do_punitions_pass .KICK punitions_to_apply.kick
      (enabled_moderators (cfgs 2)) fails)
    Event.isMessageCall Event.isKickCall rfl ?_ ?_ i j hi hj hmsg hkick
  · exact pass_countP_zero .KICK _ _ _ _
      (fun q => punitionStep_KICK_no_message q _ fails)
  · simp only [List.countP_append]
    rw [pass_countP_zero .MESSAGE _ _ _ _
        (fun q => punitionStep_MESSAGE_no_kick q _ fails),
      pass_countP_zero .PUNISH _ _ _ _
        (fun q => punitionStep_PUNISH_no_kick q _ fails)]
    rcases punitions_to_apply.nonempty <;> simp [Event.isKickCall]

/-- C5 witness: an aggregate holding one warning and one kick for the same
player; the warning call sits at index 1, the kick call at index 2. -/
theorem do_punitions_warn_before_kick_witness :
    ((do_punitions ⟨[wPlayer], [], [kPlayer]⟩ (fun _ => cfgNone)
        (fun _ _ => false)).get ⟨1, by decide⟩).isMessageCall = true ∧
    ((do_punitions ⟨[wPlayer], [], [kPlayer]⟩ (fun _ => cfgNone)
        (fun _ _ => false)).get ⟨2, by decide⟩).isKickCall = true ∧
    (1 : Nat) < 2 :=
  ⟨by decide, by decide,
   do_punitions_warn_before_kick ⟨[wPlayer], [], [kPlayer]⟩ (fun _ => cfgNone)
     (fun _ _ => false) 1 2 (by decide) (by decide) (by decide) (by decide)⟩

/-! ## C1: connect hook never reaches the executor -/

/-- Every event produced by the connect-hook loop is either carried over
from the initial state or a hook-invocation marker. -/
lemma connectedAggregateFrom_events (mods : List Moderator)
    (hooks : OnConnectedHooks) (name player_id : String)
    (detail : Option PlayerData) (init : List Event × PunitionsToApply) :
    ∀ e ∈ (connectedAggregateFrom mods hooks name player_id detail init).1,
      e ∈ init.1 ∨ ∃ m, e = Event.on_connected_hook m := by
  induction mods generalizing init with
  | nil =>
      intro e he
      exact Or.inl he
  | cons m rest ih =>
      intro e he
      simp only [connectedAggregateFrom, List.foldl_cons] at he
      rcases hm : hooks m with _ | h <;> rw [hm] at he
      · exact ih init e he
      · rcases ih _ e he with hin | hex
        · rcases List.mem_append.mp hin with h1 | h2
          · exact Or.inl h1
          · exact Or.inr ⟨m, by simpa using h2⟩
        · exact hex.elim (fun m2 h2 => Or.inr ⟨m2, h2⟩)

/-- The connect-hook loop's events contain nothing matching a predicate
that is false on hook-invocation markers. -/
lemma connectedAggregate_countP (mods : List Moderator)
    (hooks : OnConnectedHooks) (name player_id : String)
    (detail : Option PlayerData) (P : Event → Bool)
    (hP : ∀ m, P (Event.on_connected_hook m) = false) :
    (connectedAggregate mods hooks name player_id detail).1.countP P = 0 := by
  apply List.countP_eq_zero.mpr
  intro e he
  rcases connectedAggregateFrom_events mods hooks name player_id detail
      ([], {}) e he with hin | ⟨m, rfl⟩
  · simp at hin
  · simp [hP m]

/-- C1 (amended): the connect hook never drives the Executor at all — its
event trace contains no punish and no kick command, whatever the merged
aggregate holds (punish/kick entries are silently discarded); and whenever
the merged aggregate has zero warnings the hook leaves the timer state
untouched. Only warnings are handed to the deferred notifier. -/
theorem on_connected_only_warnings_deferred (r : RedisState)
    (cfg : AutomodConfigs) (hooks : OnConnectedHooks) (detailOk : Bool)
    (detail : PlayerData) (name player_id : String) (ts : TimerState) :
    ((on_connected r cfg hooks detailOk detail name player_id ts).1.countP
        Event.isPunishCall = 0) ∧
    ((on_connected r cfg hooks detailOk detail name player_id ts).1.countP
        Event.isKickCall = 0) ∧
    ((connectedAggregate (enabled_moderators cfg) hooks name player_id
        (if detailOk then some detail else none)).2.warning = [] →
      (on_connected r cfg hooks detailOk detail name player_id ts).2 = ts) := by
  have hPunish : ∀ d, (connectedAggregate (enabled_moderators cfg) hooks name
      player_id d).1.countP Event.isPunishCall = 0 :=
    fun d => connectedAggregate_countP _ hooks name player_id d
      Event.isPunishCall (fun _ => rfl)
  have hKick : ∀ d, (connectedAggregate (enabled_moderators cfg) hooks name
      player_id d).1.countP Event.isKickCall = 0 :=
    fun d => connectedAggregate_countP _ hooks name player_id d
      Event.isKickCall (fun _ => rfl)
  rcases hg : is_first_run_done r with _ | _
  · simp [on_connected, hg, Event.isPunishCall, Event.isKickCall]
  · by_cases hm : (enabled_moderators cfg).length = 0
    · simp [on_connected, hg, hm, Event.isPunishCall, Event.isKickCall]
    · rcases hd : detailOk with _ | _
      · by_cases hw : (connectedAggregate (enabled_moderators cfg) hooks name
            player_id none).2.warning.length = 0
        · simp [on_connected, hg, hm, hw, List.countP_append, hPunish none,
            hKick none, Event.isPunishCall, Event.isKickCall]
        · refine ⟨?_, ?_, fun hempty => absurd (by simpa using hempty) hw⟩ <;>
            simp [on_connected, hg, hm, hw, List.countP_append, hPunish none,
              hKick none, Event.isPunishCall, Event.isKickCall]
      · by_cases hw : (connectedAggregate (enabled_moderators cfg) hooks name
            player_id (some detail)).2.warning.length = 0
        · simp [on_connected, hg, hm, hw, List.countP_append,
            hPunish (some detail), hKick (some detail), Event.isPunishCall,
            Event.isKickCall]
        · refine ⟨?_, ?_, fun hempty => absurd (by simpa using hempty) hw⟩ <;>
            simp [on_connected, hg, hm, hw, List.countP_append,
              hPunish (some detail), hKick (some detail), Event.isPunishCall,
              Event.isKickCall]

/-- Connect hook set in which only the no-leader moderator has an
`on_connected` hook, proposing one warning, one punish and one kick. -/
def hooksC1 : OnConnectedHooks := fun m =>
  if m = Moderator.NoLeaderAutomod then
    some (fun _ _ _ => ⟨[wPlayer], [pPlayer], [kPlayer]⟩)
  else none

/-- C1 counterexample: a connect event whose merged aggregate holds a
warning, a punish and a kick — contrary to the claim, the punish and kick
entries are NOT applied through the executor: the hook's event trace
contains no punish call and no kick call at all. -/
theorem on_connected_punish_dropped_cex :
    (connectedAggregate (enabled_moderators cfgNoLeader) hooksC1 "alice" "A1"
        (some "d")).2.punish = [pPlayer] ∧
    (connectedAggregate (enabled_moderators cfgNoLeader) hooksC1 "alice" "A1"
        (some "d")).2.kick = [kPlayer] ∧
    (connectedAggregate (enabled_moderators cfgNoLeader) hooksC1 "alice" "A1"
        (some "d")).2.warning = [wPlayer] ∧
    ((on_connected ⟨some 240⟩ cfgNoLeader hooksC1 true "d" "alice" "A1"
        ⟨[], []⟩).1.countP Event.isPunishCall = 0) ∧
    ((on_connected ⟨some 240⟩ cfgNoLeader hooksC1 true "d" "alice" "A1"
        ⟨[], []⟩).1.countP Event.isKickCall = 0) := by
  decide

/-- C1 witness: a ready guard, one enabled moderator, no hooks — the merged
aggregate has zero warnings and the hook exits leaving the timers alone. -/
theorem on_connected_only_warnings_deferred_witness :
    ((on_connected ⟨some 240⟩ cfgNoLeader (fun _ => none) true "d" "alice"
        "A1" ⟨[], []⟩).1.countP Event.isPunishCall = 0) ∧
    ((on_connected ⟨some 240⟩ cfgNoLeader (fun _ => none) true "d" "alice"
        "A1" ⟨[], []⟩).2 = (⟨[], []⟩ : TimerState)) :=
  ⟨(on_connected_only_warnings_deferred ⟨some 240⟩ cfgNoLeader (fun _ => none)
      true "d" "alice" "A1" ⟨[], []⟩).1,
   (on_connected_only_warnings_deferred ⟨some 240⟩ cfgNoLeader (fun _ => none)
      true "d" "alice" "A1" ⟨[], []⟩).2.2 (by decide)⟩

/-! ## C2: two deferred schedulings for the same player -/

/-- A second warning text for the same player. -/
def wPlayer2 : PunishPlayer := ⟨"alice", "A1", ⟨"w2", "mod", false, none⟩⟩

/-- Hook set for the first connect event: warning set `[wPlayer]`. -/
def hooksC2a : OnConnectedHooks := fun m =>
  if m = Moderator.NoLeaderAutomod then some (fun _ _ _ => ⟨[wPlayer], [], []⟩)
  else none

/-- Hook set for the second connect event: warning set `[wPlayer2]`. -/
def hooksC2b : OnConnectedHooks := fun m =>
  if m = Moderator.NoLeaderAutomod then some (fun _ _ _ => ⟨[wPlayer2], [], []⟩)
  else none

/-- Timer state after the first scheduling for player "A1". -/
def tsAfterFirst : TimerState :=
  (on_connected ⟨some 240⟩ cfgNoLeader hooksC2a true "d" "alice" "A1"
    ⟨[], []⟩).2

/-- Timer state after the second scheduling for the same player, before the
first 20-second timer has fired. -/
def tsAfterSecond : TimerState :=
  (on_connected ⟨some 240⟩ cfgNoLeader hooksC2b true "d" "alice" "A1"
    tsAfterFirst).2

/-- C2 (code bug): two schedulings for the same player id in quick
succession overwrite the `pendingTimers` dict entry (one entry remains) but
the superseded `Timer` is never cancelled — both started timers fire, so
TWO deliveries occur and the first carries the first call's warning set,
contradicting the claimed exactly-one delivery of the second set. -/
theorem deferred_double_schedule_two_deliveries :
    tsAfterSecond.pendingTimers.length = 1 ∧
    tsAfterSecond.started.length = 2 ∧
    firedDeliveries tsAfterSecond (fun _ => false) =
      [[Event.rcon (.message_player_deferred "A1" "w1" "mod")],
       [Event.rcon (.message_player_deferred "A1" "w2" "mod")]] := by
  decide

/-! ## C4: notifier failure handling is per batch, not per message -/

/-- A notification task holding two queued warnings; the first message will
fail, the second would succeed. -/
def taskC4 : NotifyTask := ⟨"alice", "A1", [pPlayer, wPlayer]⟩

/-- C4 counterexample: the first delivery fails; the failure is caught and
logged, but the loop does NOT continue — the second queued message is never
attempted (the try/except wraps the whole loop, not each message). -/
theorem notify_player_batch_abort_cex :
    taskC4.warnings.length = 2 ∧
    (fun q => q == pPlayer) pPlayer = true ∧
    (fun q => q == pPlayer) wPlayer = false ∧
    notify_player taskC4 (fun q => q == pPlayer) =
      [Event.rcon (.message_player_deferred "B1" "stop" "mod"),
       Event.logError "Could not message player alice (A1)"] := by
  decide

/-- C4 (amended): a delivery failure is recovered locally — it is caught
and logged, never escaping the notifier — but recovery is per batch: the
messages queued after the first failing one are skipped, not delivered. -/
theorem notify_player_per_batch_recovery (t : NotifyTask)
    (msgFails : PunishPlayer → Bool) (pre : List PunishPlayer)
    (p : PunishPlayer) (post : List PunishPlayer)
    (hw : t.warnings = pre ++ p :: post)
    (hpre : ∀ q ∈ pre, msgFails q = false) (hp : msgFails p = true) :
    notify_player t msgFails =
      pre.map (fun q => Event.rcon (.message_player_deferred q.player_id
        q.details.message q.details.author))
      ++ [Event.rcon (.message_player_deferred p.player_id p.details.message
            p.details.author),
          Event.logError ("Could not message player " ++ t.name ++ " (" ++
            t.player_id ++ ")")] := by
  rw [notify_player, hw]
  clear hw
  induction pre with
  | nil => simp [notify_loop, hp]
  | cons q rest ih =>
      have hq := hpre q (by simp)
      simp only [List.cons_append, notify_loop, hq, Bool.false_eq_true,
        if_false, List.map_cons]
      simp only [List.append_eq]
      rw [ih (fun x hx => hpre x (List.mem_cons_of_mem q hx))]

/-- C4 witness: three queued warnings with the middle one failing — the
first is delivered, the failure is logged, the third is skipped. -/
theorem notify_player_per_batch_recovery_witness :
    notify_player ⟨"alice", "A1", [wPlayer, pPlayer, kPlayer]⟩
        (fun q => q == pPlayer) =
      [wPlayer].map (fun q => Event.rcon (.message_player_deferred q.player_id
        q.details.message q.details.author))
      ++ [Event.rcon (.message_player_deferred pPlayer.player_id
            pPlayer.details.message pPlayer.details.author),
          Event.logError ("Could not message player " ++ "alice" ++ " (" ++
            "A1" ++ ")")] :=
  notify_player_per_batch_recovery ⟨"alice", "A1", [wPlayer, pPlayer, kPlayer]⟩
    (fun q => q == pPlayer) [wPlayer] pPlayer [kPlayer] rfl (by decide)
    (by decide)

/-! ## C10: moderator set rebuilt from fresh config in each pass -/

/-- A config store whose answer changes between the four reads of one
`punish_squads` invocation: proposal time, message pass, punish pass, kick
pass. -/
def cfgsC10 : Nat → AutomodConfigs
  | 0 => cfgNoLeader
  | 1 => cfgLevel
  | 2 => cfgSeeding
  | _ => cfgSoloTank

/-- Rule logic in which only the no-leader moderator proposes anything: a
punish for bob. -/
def modEvalC10 : ModEval := fun m _ _ _ _ _ =>
  if m = Moderator.NoLeaderAutomod then ⟨[], [pPlayer], []⟩ else {}

/-- Team view with one allied squad and no commander. -/
def tvC10 : TeamView := ⟨some ⟨none, [("able", ⟨["x"]⟩)]⟩, none⟩

/-- C10: `do_punitions` re-reads the configuration for each of its three
passes (reads 1-3 after the proposal-time read 0), so the four
enabled-moderator constructions can all differ; the punish-failure callback
goes to the freshly constructed punish-pass set (here the seeding
moderator) and NOT to the no-leader moderator that proposed the punish. -/
theorem moderators_reread_per_pass :
    enabled_moderators (cfgsC10 0) = [Moderator.NoLeaderAutomod] ∧
    enabled_moderators (cfgsC10 2) = [Moderator.SeedingRulesAutomod] ∧
    enabled_moderators (cfgsC10 1) ≠ enabled_moderators (cfgsC10 2) ∧
    enabled_moderators (cfgsC10 2) ≠ enabled_moderators (cfgsC10 3) ∧
    enabled_moderators (cfgsC10 0) ≠ enabled_moderators (cfgsC10 2) ∧
    ((punish_squads cfgsC10 modEvalC10 tvC10 "gs"
        (fun me _ => me == ActionMethod.PUNISH) ⟨none⟩).1.countP
        (fun e => e == Event.player_punish_failed .SeedingRulesAutomod pPlayer)
      = 1) ∧
    ((punish_squads cfgsC10 modEvalC10 tvC10 "gs"
        (fun me _ => me == ActionMethod.PUNISH) ⟨none⟩).1.countP
        (fun e => match e with
          | Event.player_punish_failed Moderator.NoLeaderAutomod _ => true
          | _ => false)
      = 0) := by
  decide

/-- C6: a single dry-run action in the executor loop issues no remote call
of any kind, yet performs exactly one audit publication when an audit
target is configured and none (silently, without error) when it is not. -/
theorem dry_run_action_no_remote_call (method : ActionMethod)
    (q : PunishPlayer) (mods : List Moderator) (fails : FailOracle)
    (h : q.details.dry_run = true) :
    (punitionStep method q mods fails).countP Event.isRconCall = 0 ∧
    (punitionStep method q mods fails).countP Event.isAuditCall
      = (if q.details.discord_audit_url.isSome then 1 else 0) :=
  punitionStep_dry_counts method q mods fails h

/-- C6 witness: one dry-run action with an audit target and one without,
against a channel that would fail every call. -/
theorem dry_run_action_no_remote_call_witness :
    ((punitionStep .KICK dryPlayerAudited [Moderator.NoLeaderAutomod]
        (fun _ _ => true)).countP Event.isRconCall = 0 ∧
     (punitionStep .KICK dryPlayerAudited [Moderator.NoLeaderAutomod]
        (fun _ _ => true)).countP Event.isAuditCall
       = (if dryPlayerAudited.details.discord_audit_url.isSome then 1 else 0)) ∧
    ((punitionStep .PUNISH dryPlayerSilent [Moderator.NoLeaderAutomod]
        (fun _ _ => true)).countP Event.isRconCall = 0 ∧
     (punitionStep .PUNISH dryPlayerSilent [Moderator.NoLeaderAutomod]
        (fun _ _ => true)).countP Event.isAuditCall
       = (if dryPlayerSilent.details.discord_audit_url.isSome then 1 else 0)) :=
  ⟨dry_run_action_no_remote_call .KICK dryPlayerAudited _ _ (by decide),
   dry_run_action_no_remote_call .PUNISH dryPlayerSilent _ _ (by decide)⟩
